import Mathlib

/-!
Shallow embedding of `src/ChainOfCustody_demo.py` from the
ChainOfCustodyProject repository: a thin console client that reads and
writes evidence-custody records through a remote smart contract
(`ChainOfCustody` class wrapping web3.py) and uploads attachments to a
content-addressed storage network (`upload_file_to_ipfs` wrapping
ipfshttpclient).

The remote ledger node, the deployed `EvidenceChainOfCustody` contract and
the IPFS daemon are external systems that the Python code only calls into;
they are embedded here as explicit deterministic state (`Node`,
`ContractState`, `IpfsWorld`).  Each client method is embedded as a pure
function that, in addition to its Python return value (as `Except Err` to
model raised exceptions), threads the node state, returns the (possibly
updated) client object, and records the externally visible remote calls it
performed as a trace of `Effect`s, in the order the Python code performs
them.
-/

set_option autoImplicit false

/-- Error taxonomy for failures surfaced by the client: connection failures,
rejected transactions, malformed addresses, absent records, upload failures
and other raised exceptions. -/
inductive Err where
  | connectionError : String → Err
  | transactionError : String → Err
  | invalidAddress : String → Err
  | notFound : Err
  | uploadError : String → Err
  | otherError : String → Err
  deriving DecidableEq

/-- Human-readable message for an error, as the console loop prints it. -/
def Err.msg : Err → String
  | .connectionError m => m
  | .transactionError m => m
  | .invalidAddress a => "invalid address: " ++ a
  | .notFound => "not found"
  | .uploadError m => m
  | .otherError m => m

/-- Decides whether a character is a hexadecimal digit. -/
def isHexDigitChar (c : Char) : Bool :=
  c.isDigit || ('a' ≤ c && c ≤ 'f') || ('A' ≤ c && c ≤ 'F')

/-- Validity check of an Ethereum address string: the `0x` prefix followed by
forty hexadecimal digits (stated over the character list of the string).
This is the acceptance condition of the external `Web3.toChecksumAddress`
library call, which raises on any other string. -/
def isValidAddress (s : String) : Bool :=
  match s.data with
  | '0' :: 'x' :: rest => rest.length == 40 && rest.all isHexDigitChar
  | _ => false

/-- Embedding of the external library call `Web3.toChecksumAddress`: fails on
a malformed address, succeeds on a valid one.  The checksum (mixed-case)
renormalisation itself is a keccak-based transformation internal to the
external library and no claim depends on the returned spelling, so the
canonical form is taken to be the address itself. -/
def Web3.toChecksumAddress (s : String) : Except Err String :=
  if isValidAddress s then Except.ok s else Except.error (Err.invalidAddress s)

/-- Embedding of the external library call `web3.fromWei(x, 'ether')`: the
exact quotient of the wei amount by the chain's decimal factor 10 ^ 18. -/
def Web3.fromWei (wei : Nat) : ℚ :=
  (wei : ℚ) / ((10 : ℚ) ^ 18)

/-- One evidence record as stored by the remote contract and returned by
`viewEvidence` as a six-component tuple. -/
structure EvidenceRecord where
  evidenceId : String
  holder : String
  holderName : String
  description : String
  ipfsHash : String
  deleted : Bool
  deriving DecidableEq

/-- Modelled from the spec: the record a Solidity mapping yields for an
absent key, all components at their default values (zero address, empty
strings, `deleted = false`). -/
def defaultEvidenceRecord : EvidenceRecord :=
  { evidenceId := "", holder := "0x0000000000000000000000000000000000000000",
    holderName := "", description := "", ipfsHash := "", deleted := false }

/-- One chain-of-custody history entry as returned by `getHistory` as a
five-component tuple. -/
structure HistoryEntry where
  holder : String
  holderName : String
  action : String
  description : String
  timestamp : Nat
  deriving DecidableEq

/-- Modelled from the spec: the storage of the external
`EvidenceChainOfCustody` contract (not part of this repository): the
evidence records and, per `(caseId, evidenceId)` key, the append-only
history list, oldest entry first. -/
structure ContractState where
  records : List ((String × String) × EvidenceRecord)
  histories : List ((String × String) × List HistoryEntry)
  deriving DecidableEq

/-- Looks up the record stored at a `(caseId, evidenceId)` key. -/
def findRecord : List ((String × String) × EvidenceRecord) → String → String → Option EvidenceRecord
  | [], _, _ => none
  | (k, v) :: rest, c, e => if k.1 = c ∧ k.2 = e then some v else findRecord rest c e

/-- Looks up the history list stored at a `(caseId, evidenceId)` key. -/
def findHistory : List ((String × String) × List HistoryEntry) → String → String → Option (List HistoryEntry)
  | [], _, _ => none
  | (k, v) :: rest, c, e => if k.1 = c ∧ k.2 = e then some v else findHistory rest c e

/-- Replaces (or inserts) the record stored at a `(caseId, evidenceId)` key. -/
def setRecord : List ((String × String) × EvidenceRecord) → String → String → EvidenceRecord → List ((String × String) × EvidenceRecord)
  | [], c, e, v => [((c, e), v)]
  | (k, w) :: rest, c, e, v =>
    if k.1 = c ∧ k.2 = e then (k, v) :: rest else (k, w) :: setRecord rest c e v

/-- Appends one history entry at the tail of the list stored at a
`(caseId, evidenceId)` key, creating the key when absent. -/
def appendHistory : List ((String × String) × List HistoryEntry) → String → String → HistoryEntry → List ((String × String) × List HistoryEntry)
  | [], c, e, en => [((c, e), [en])]
  | (k, l) :: rest, c, e, en =>
    if k.1 = c ∧ k.2 = e then (k, l ++ [en]) :: rest else (k, l) :: appendHistory rest c e en

/-- Modelled from the spec: what the contract's `viewEvidence` returns — the
stored record, or the all-default record when the key is absent (Solidity
mapping semantics; the contract performs no existence check on view). -/
def ContractState.viewOf (cs : ContractState) (c e : String) : EvidenceRecord :=
  (findRecord cs.records c e).getD defaultEvidenceRecord

/-- Modelled from the spec: what the contract's `getHistory` returns — the
stored history list oldest-first, empty when the key was never registered. -/
def ContractState.histOf (cs : ContractState) (c e : String) : List HistoryEntry :=
  (findHistory cs.histories c e).getD []

/-- The three state-changing contract functions the client invokes, with
their arguments as the client passes them. -/
inductive ContractCall where
  | register (caseId evidenceId holderName description ipfsHash action : String)
  | transfer (caseId evidenceId toAddr toName action desc : String)
  | del (caseId evidenceId : String)
  deriving DecidableEq

/-- Modelled from the spec: execution of one state-changing call by the
external contract.  `register` rejects a duplicate evidence id, stores the
new record with the sender as holder and appends one history entry;
`transfer` rejects an absent record, updates holder, holder name and
description and appends one history entry; `del` rejects an absent record
and sets the deleted flag, keeping every other component (soft delete). -/
def execContract (cs : ContractState) (call : ContractCall) (sender : String) (now : Nat) : Except String ContractState :=
  match call with
  | .register c e hn d ih a =>
    match findRecord cs.records c e with
    | some _ => Except.error "evidence already registered"
    | none =>
      Except.ok
        { records := cs.records ++ [((c, e),
            { evidenceId := e, holder := sender, holderName := hn,
              description := d, ipfsHash := ih, deleted := false })],
          histories := appendHistory cs.histories c e
            { holder := sender, holderName := hn, action := a,
              description := d, timestamp := now } }
  | .transfer c e ta tn a d =>
    match findRecord cs.records c e with
    | none => Except.error "evidence not found"
    | some r =>
      Except.ok
        { records := setRecord cs.records c e
            { r with holder := ta, holderName := tn, description := d },
          histories := appendHistory cs.histories c e
            { holder := ta, holderName := tn, action := a,
              description := d, timestamp := now } }
  | .del c e =>
    match findRecord cs.records c e with
    | none => Except.error "evidence not found"
    | some r =>
      Except.ok
        { records := setRecord cs.records c e { r with deleted := true },
          histories := cs.histories }

/-- State of the remote ledger node the client talks to: reachability, the
accounts it knows, per-account balances in wei, per-account transaction
counts, the contract storage, and counters for blocks and issued
transactions. -/
structure Node where
  reachable : Bool
  accounts : List String
  balances : List (String × Nat)
  txCount : List (String × Nat)
  contractStore : ContractState
  blockNumber : Nat
  txIssued : Nat
  now : Nat
  deriving DecidableEq

/-- Looks a value up in a per-account table, zero when absent. -/
def lookupNat : List (String × Nat) → String → Nat
  | [], _ => 0
  | (k, v) :: rest, a => if k = a then v else lookupNat rest a

/-- Current transaction count (next nonce) of an account on the node. -/
def Node.countOf (node : Node) (a : String) : Nat :=
  lookupNat node.txCount a

/-- Embedding of `web3.eth.get_transaction_count`: the account's current
transaction count, or a connection failure when the node is unreachable. -/
def Node.get_transaction_count (node : Node) (a : String) : Except Err Nat :=
  if node.reachable then Except.ok (node.countOf a)
  else Except.error (Err.connectionError "node unreachable")

/-- Embedding of `web3.eth.get_balance`: the account's balance in wei, or a
connection failure when the node is unreachable. -/
def Node.get_balance (node : Node) (a : String) : Except Err Nat :=
  if node.reachable then Except.ok (lookupNat node.balances a)
  else Except.error (Err.connectionError "node unreachable")

/-- Increments an account's entry in a per-account table. -/
def bumpCount : List (String × Nat) → String → List (String × Nat)
  | [], a => [(a, 1)]
  | (k, v) :: rest, a => if k = a then (k, v + 1) :: rest else (k, v) :: bumpCount rest a

/-- Embedding of `.transact(...)` on a bound contract function: the node, if
reachable, checks the supplied nonce against the sender's current count,
executes the call in the contract (a rejected execution surfaces as a
transaction error), and on success returns the transaction hash together
with the updated node state. -/
def Node.transact (node : Node) (call : ContractCall) (sender : String) (nonce : Nat) : Except Err (Nat × Node) :=
  if node.reachable then
    if nonce = node.countOf sender then
      match execContract node.contractStore call sender node.now with
      | Except.error m => Except.error (Err.transactionError m)
      | Except.ok cs =>
        Except.ok (node.txIssued,
          { node with
            contractStore := cs
            txCount := bumpCount node.txCount sender
            txIssued := node.txIssued + 1
            blockNumber := node.blockNumber + 1 })
    else Except.error (Err.transactionError "invalid nonce")
  else Except.error (Err.connectionError "node unreachable")

/-- Transaction receipt as returned once a transaction is confirmed. -/
structure Receipt where
  transactionHash : Nat
  blockNumber : Nat
  status : Bool
  deriving DecidableEq

/-- Embedding of `web3.eth.wait_for_transaction_receipt`: blocks until the
transaction is confirmed and returns its receipt. -/
def Node.wait_for_transaction_receipt (node : Node) (th : Nat) : Except Err Receipt :=
  if node.reachable then
    Except.ok { transactionHash := th, blockNumber := node.blockNumber, status := true }
  else Except.error (Err.connectionError "node unreachable")

/-- The contract interface descriptor loaded from the contract config JSON
file (the ABI function signatures are all the client uses). -/
structure ContractConfig where
  abi : List String
  deriving DecidableEq

/-- The client session: the `ChainOfCustody` object's fields as set by
`__init__` — ledger endpoint, checksummed contract address, contract
interface descriptor, checksummed caller account. -/
structure ChainOfCustody where
  httpProvider : String
  contract_address : String
  contract_config : ContractConfig
  account : String
  deriving DecidableEq

/-- Embedding of `ChainOfCustody.__init__`: checksums the contract address
and the account and stores the four session fields. -/
def ChainOfCustody.init (http_provider contract_addr : String) (contract_config : ContractConfig) (account : String) : Except Err ChainOfCustody :=
  match Web3.toChecksumAddress contract_addr with
  | Except.error e => Except.error e
  | Except.ok ca =>
    match Web3.toChecksumAddress account with
    | Except.error e => Except.error e
    | Except.ok acc =>
      Except.ok { httpProvider := http_provider, contract_address := ca,
                  contract_config := contract_config, account := acc }

/-- Externally visible remote calls a client method performs, in order:
nonce fetch, transaction submission (function name, sender, nonce), receipt
wait, read-only contract or node call, balance query, IPFS add. -/
inductive Effect where
  | fetchNonce (account : String)
  | submitTx (fn : String) (sender : String) (nonce : Nat)
  | waitReceipt (txHash : Nat)
  | readCall (fn : String)
  | balanceCall (addr : String)
  | ipfsAdd (path : String)
  deriving DecidableEq

/-- Result of one client method: the Python return value or raised
exception, the node state afterwards, the client object afterwards, and the
trace of remote calls performed. -/
structure MRes (α : Type) where
  result : Except Err α
  node : Node
  self : ChainOfCustody
  trace : List Effect

/-- Embedding of `ChainOfCustody.getAccounts`: returns `web3.eth.accounts`. -/
def ChainOfCustody.getAccounts (coc : ChainOfCustody) (node : Node) : MRes (List String) :=
  if node.reachable then ⟨Except.ok node.accounts, node, coc, [Effect.readCall "eth_accounts"]⟩
  else ⟨Except.error (Err.connectionError "node unreachable"), node, coc, [Effect.readCall "eth_accounts"]⟩

/-- Embedding of `ChainOfCustody.getBalance`: with no argument uses the
session account, otherwise checksums the given address (which can raise);
then converts the wei balance with `fromWei`. -/
def ChainOfCustody.getBalance (coc : ChainOfCustody) (node : Node) (account_addr : Option String) : MRes ℚ :=
  match account_addr with
  | none =>
    match node.get_balance coc.account with
    | Except.error e => ⟨Except.error e, node, coc, [Effect.balanceCall coc.account]⟩
    | Except.ok w => ⟨Except.ok (Web3.fromWei w), node, coc, [Effect.balanceCall coc.account]⟩
  | some a =>
    match Web3.toChecksumAddress a with
    | Except.error e => ⟨Except.error e, node, coc, []⟩
    | Except.ok ca =>
      match node.get_balance ca with
      | Except.error e => ⟨Except.error e, node, coc, [Effect.balanceCall ca]⟩
      | Except.ok w => ⟨Except.ok (Web3.fromWei w), node, coc, [Effect.balanceCall ca]⟩

/-- Embedding of the Python call `coc.getBalance()` with the argument left
at its default `None`. -/
def ChainOfCustody.getBalanceDefault (coc : ChainOfCustody) (node : Node) : MRes ℚ :=
  coc.getBalance node none

/-- Embedding of `ChainOfCustody.registerEvidence`: fetches a fresh nonce
for the session account, submits the `registerEvidence` contract call from
that account with that nonce, and waits for the receipt. -/
def ChainOfCustody.registerEvidence (coc : ChainOfCustody) (node : Node) (caseId evidenceId holderName description ipfsHash action : String) : MRes Receipt :=
  match node.get_transaction_count coc.account with
  | Except.error e => ⟨Except.error e, node, coc, [Effect.fetchNonce coc.account]⟩
  | Except.ok n =>
    match node.transact (ContractCall.register caseId evidenceId holderName description ipfsHash action) coc.account n with
    | Except.error e =>
      ⟨Except.error e, node, coc,
        [Effect.fetchNonce coc.account, Effect.submitTx "registerEvidence" coc.account n]⟩
    | Except.ok (th, node') =>
      match node'.wait_for_transaction_receipt th with
      | Except.error e =>
        ⟨Except.error e, node', coc,
          [Effect.fetchNonce coc.account, Effect.submitTx "registerEvidence" coc.account n,
           Effect.waitReceipt th]⟩
      | Except.ok r =>
        ⟨Except.ok r, node', coc,
          [Effect.fetchNonce coc.account, Effect.submitTx "registerEvidence" coc.account n,
           Effect.waitReceipt th]⟩

/-- Embedding of the Python call with the `action` parameter left at its
default value `"collected"`. -/
def ChainOfCustody.registerEvidenceDefault (coc : ChainOfCustody) (node : Node) (caseId evidenceId holderName description ipfsHash : String) : MRes Receipt :=
  coc.registerEvidence node caseId evidenceId holderName description ipfsHash "collected"

/-- Embedding of `ChainOfCustody.transferEvidence`: checksums the recipient
address first (Python evaluates `Web3.toChecksumAddress(to_addr)` while
building the bound contract function, before the transact dictionary), so a
malformed address raises before the nonce fetch; otherwise fetches a fresh
nonce, submits `transferEvidence` from the session account and waits for
the receipt. -/
def ChainOfCustody.transferEvidence (coc : ChainOfCustody) (node : Node) (caseId evidenceId to_addr to_name action desc : String) : MRes Receipt :=
  match Web3.toChecksumAddress to_addr with
  | Except.error e => ⟨Except.error e, node, coc, []⟩
  | Except.ok ta =>
    match node.get_transaction_count coc.account with
    | Except.error e => ⟨Except.error e, node, coc, [Effect.fetchNonce coc.account]⟩
    | Except.ok n =>
      match node.transact (ContractCall.transfer caseId evidenceId ta to_name action desc) coc.account n with
      | Except.error e =>
        ⟨Except.error e, node, coc,
          [Effect.fetchNonce coc.account, Effect.submitTx "transferEvidence" coc.account n]⟩
      | Except.ok (th, node') =>
        match node'.wait_for_transaction_receipt th with
        | Except.error e =>
          ⟨Except.error e, node', coc,
            [Effect.fetchNonce coc.account, Effect.submitTx "transferEvidence" coc.account n,
             Effect.waitReceipt th]⟩
        | Except.ok r =>
          ⟨Except.ok r, node', coc,
            [Effect.fetchNonce coc.account, Effect.submitTx "transferEvidence" coc.account n,
             Effect.waitReceipt th]⟩

/-- Embedding of the Python call with `action` and `desc` left at their
default values `"transferred"` and `""`. -/
def ChainOfCustody.transferEvidenceDefault (coc : ChainOfCustody) (node : Node) (caseId evidenceId to_addr to_name : String) : MRes Receipt :=
  coc.transferEvidence node caseId evidenceId to_addr to_name "transferred" ""

/-- Embedding of `ChainOfCustody.deleteEvidence`: fetches a fresh nonce for
the session account, submits `deleteEvidence` from that account with that
nonce, and waits for the receipt. -/
def ChainOfCustody.deleteEvidence (coc : ChainOfCustody) (node : Node) (caseId evidenceId : String) : MRes Receipt :=
  match node.get_transaction_count coc.account with
  | Except.error e => ⟨Except.error e, node, coc, [Effect.fetchNonce coc.account]⟩
  | Except.ok n =>
    match node.transact (ContractCall.del caseId evidenceId) coc.account n with
    | Except.error e =>
      ⟨Except.error e, node, coc,
        [Effect.fetchNonce coc.account, Effect.submitTx "deleteEvidence" coc.account n]⟩
    | Except.ok (th, node') =>
      match node'.wait_for_transaction_receipt th with
      | Except.error e =>
        ⟨Except.error e, node', coc,
          [Effect.fetchNonce coc.account, Effect.submitTx "deleteEvidence" coc.account n,
           Effect.waitReceipt th]⟩
      | Except.ok r =>
        ⟨Except.ok r, node', coc,
          [Effect.fetchNonce coc.account, Effect.submitTx "deleteEvidence" coc.account n,
           Effect.waitReceipt th]⟩

/-- Embedding of `ChainOfCustody.viewEvidence`: a read-only `.call(...)`
whose result is forwarded to the caller unchanged — the Python method
performs no check on the returned tuple. -/
def ChainOfCustody.viewEvidence (coc : ChainOfCustody) (node : Node) (caseId evidenceId : String) : MRes EvidenceRecord :=
  if node.reachable then
    ⟨Except.ok (node.contractStore.viewOf caseId evidenceId), node, coc, [Effect.readCall "viewEvidence"]⟩
  else ⟨Except.error (Err.connectionError "node unreachable"), node, coc, [Effect.readCall "viewEvidence"]⟩

/-- Embedding of `ChainOfCustody.getHistory`: a read-only `.call(...)` whose
result is forwarded to the caller unchanged. -/
def ChainOfCustody.getHistory (coc : ChainOfCustody) (node : Node) (caseId evidenceId : String) : MRes (List HistoryEntry) :=
  if node.reachable then
    ⟨Except.ok (node.contractStore.histOf caseId evidenceId), node, coc, [Effect.readCall "getHistory"]⟩
  else ⟨Except.error (Err.connectionError "node unreachable"), node, coc, [Effect.readCall "getHistory"]⟩

/-- Embedding of `ChainOfCustody.getAllEvidenceIds`: a read-only
`.call(...)` returning the contract's list of known evidence identifiers. -/
def ChainOfCustody.getAllEvidenceIds (coc : ChainOfCustody) (node : Node) : MRes (List String) :=
  if node.reachable then
    ⟨Except.ok (node.contractStore.records.map (fun p => p.1.2)), node, coc, [Effect.readCall "getAllEvidenceIds"]⟩
  else ⟨Except.error (Err.connectionError "node unreachable"), node, coc, [Effect.readCall "getAllEvidenceIds"]⟩

/-- Looks a file's contents up in the embedded file system. -/
def lookupFile : List (String × String) → String → Option String
  | [], _ => none
  | (k, v) :: rest, p => if k = p then some v else lookupFile rest p

/-- Embedding of `ChainOfCustody.getPrivateKey`: reads `privatekey.txt`
(raising when the file is absent) and strips surrounding whitespace; the
client object is returned alongside, unchanged. -/
def ChainOfCustody.getPrivateKey (coc : ChainOfCustody) (fs : List (String × String)) : Except Err String × ChainOfCustody :=
  match lookupFile fs "privatekey.txt" with
  | none => (Except.error (Err.otherError "privatekey.txt not found"), coc)
  | some content => (Except.ok content.trim, coc)

/-- State of the external content-addressed storage network as the client
can observe it: whether a daemon is reachable and, per local file path, the
content hash the network assigns to that file (absent paths cannot be
added). -/
structure IpfsWorld where
  daemonUp : Bool
  files : List (String × String)
  deriving DecidableEq

/-- Embedding of the body of the `try` block in `upload_file_to_ipfs`:
`ipfshttpclient.connect()` followed by `client.add(filepath)`, either of
which raises — connecting fails when no daemon is running, adding fails
when the file does not exist.  The error value carries the human-readable
cause. -/
def ipfs_connect_add (w : IpfsWorld) (filepath : String) : Except String String :=
  if w.daemonUp then
    match lookupFile w.files filepath with
    | none => Except.error ("could not find file: " ++ filepath)
    | some h => Except.ok h
  else Except.error "ConnectionError: storage daemon not running"

/-- Embedding of `upload_file_to_ipfs`: every exception from the connect/add
sequence is caught and turned into the distinguished failure value `none`;
on success the content hash is returned. -/
def upload_file_to_ipfs (w : IpfsWorld) (filepath : String) : Option String :=
  match ipfs_connect_add w filepath with
  | Except.ok h => some h
  | Except.error _ => none

/-- Outcome of one iteration of the console loop: continue to the next
iteration, or leave the loop (the process then ends with the given exit
code). -/
inductive LoopOutcome where
  | next
  | exitWith (code : Nat)
  deriving DecidableEq

/-- Result of one console-loop iteration: the outcome, the node and client
state afterwards, the lines printed, and the trace of remote calls
performed during the action. -/
structure StepRes where
  outcome : LoopOutcome
  node : Node
  coc : ChainOfCustody
  messages : List String
  trace : List Effect

/-- State and output produced by one menu action's handler: the node and
client state afterwards, the lines printed, and the trace of remote calls
performed. -/
structure ActionRes where
  node : Node
  coc : ChainOfCustody
  messages : List String
  trace : List Effect

/-- Lines the choice-5 handler prints for a fetched history. -/
def historyLines (history : List HistoryEntry) : List String :=
  if history.length = 0 then ["No history found."]
  else history.map (fun r =>
    "Holder: " ++ r.holder ++ " Name: " ++ r.holderName ++ " Action: " ++ r.action
      ++ " Description: " ++ r.description ++ " Timestamp: " ++ toString r.timestamp)

/-- Embedding of the choice-1 handler of `main_cli`: reads its inputs,
uploads the file, refuses to register when the upload failed, otherwise
registers with action `"collected"` inside a try/except that turns a raised
error into a printed message. -/
def registerAction (coc : ChainOfCustody) (node : Node) (ipfs : IpfsWorld) (inputs : List String) : ActionRes :=
  let caseId := inputs.getD 0 ""
  let evidenceId := inputs.getD 1 ""
  let holderName := inputs.getD 2 ""
  let description := inputs.getD 3 ""
  let filePath := inputs.getD 4 ""
  match upload_file_to_ipfs ipfs filePath with
  | none =>
    ⟨node, coc, ["Failed to upload file to IPFS. Cannot register evidence."],
      [Effect.ipfsAdd filePath]⟩
  | some ipfsHash =>
    let r := coc.registerEvidence node caseId evidenceId holderName description ipfsHash "collected"
    match r.result with
    | Except.ok receipt =>
      ⟨r.node, r.self, ["Evidence registered with Tx Hash: " ++ toString receipt.transactionHash],
        Effect.ipfsAdd filePath :: r.trace⟩
    | Except.error e =>
      ⟨r.node, r.self, ["Error registering evidence: " ++ e.msg],
        Effect.ipfsAdd filePath :: r.trace⟩

/-- Embedding of the choice-2 handler of `main_cli`: reads its inputs and
transfers with action `"transferred"` inside a try/except that turns a
raised error into a printed message. -/
def transferAction (coc : ChainOfCustody) (node : Node) (inputs : List String) : ActionRes :=
  let caseId := inputs.getD 0 ""
  let evidenceId := inputs.getD 1 ""
  let toAddress := inputs.getD 2 ""
  let toName := inputs.getD 3 ""
  let description := inputs.getD 4 ""
  let r := coc.transferEvidence node caseId evidenceId toAddress toName "transferred" description
  match r.result with
  | Except.ok receipt =>
    ⟨r.node, r.self, ["Evidence transferred with Tx Hash: " ++ toString receipt.transactionHash], r.trace⟩
  | Except.error e =>
    ⟨r.node, r.self, ["Error transferring evidence: " ++ e.msg], r.trace⟩

/-- Embedding of the choice-3 handler of `main_cli`. -/
def deleteAction (coc : ChainOfCustody) (node : Node) (inputs : List String) : ActionRes :=
  let r := coc.deleteEvidence node (inputs.getD 0 "") (inputs.getD 1 "")
  match r.result with
  | Except.ok receipt =>
    ⟨r.node, r.self, ["Evidence deleted with Tx Hash: " ++ toString receipt.transactionHash], r.trace⟩
  | Except.error e =>
    ⟨r.node, r.self, ["Error deleting evidence: " ++ e.msg], r.trace⟩

/-- Embedding of the choice-4 handler of `main_cli`. -/
def viewAction (coc : ChainOfCustody) (node : Node) (inputs : List String) : ActionRes :=
  let r := coc.viewEvidence node (inputs.getD 0 "") (inputs.getD 1 "")
  match r.result with
  | Except.ok ev =>
    ⟨r.node, r.self,
      ["Evidence ID: " ++ ev.evidenceId, "Current Holder: " ++ ev.holder,
       "Holder Name: " ++ ev.holderName, "Description: " ++ ev.description,
       "IPFS Hash: " ++ ev.ipfsHash,
       "Deleted: " ++ (if ev.deleted then "Yes" else "No")], r.trace⟩
  | Except.error e =>
    ⟨r.node, r.self, ["Error viewing evidence: " ++ e.msg], r.trace⟩

/-- Embedding of the choice-5 handler of `main_cli`. -/
def historyAction (coc : ChainOfCustody) (node : Node) (inputs : List String) : ActionRes :=
  let r := coc.getHistory node (inputs.getD 0 "") (inputs.getD 1 "")
  match r.result with
  | Except.ok history => ⟨r.node, r.self, historyLines history, r.trace⟩
  | Except.error e =>
    ⟨r.node, r.self, ["Error fetching history: " ++ e.msg], r.trace⟩

/-- Embedding of the choice-6 handler of `main_cli`. -/
def listAction (coc : ChainOfCustody) (node : Node) : ActionRes :=
  let r := coc.getAllEvidenceIds node
  match r.result with
  | Except.ok ids =>
    ⟨r.node, r.self, "All evidence IDs:" :: ids.map (fun i => " - " ++ i), r.trace⟩
  | Except.error e =>
    ⟨r.node, r.self, ["Error listing evidence: " ++ e.msg], r.trace⟩

/-- Lifts an action handler's result to a step result: in the Python
`while True` loop every menu action falls through to the next iteration
(only choice `"0"` executes `break`), so the outcome is `next`. -/
def ActionRes.continues (a : ActionRes) : StepRes :=
  ⟨LoopOutcome.next, a.node, a.coc, a.messages, a.trace⟩

/-- Embedding of one iteration of the `while True` loop of `main_cli`: the
menu choice has been read, the handler for it reads its own inputs (the
`inputs` list stands for the remaining `input()` answers, in order),
performs at most one action against the uploader and the ledger client,
catching any raised error into a printed message, and the loop continues;
choice `"0"` leaves the loop, after which the process exits with code 0. -/
def main_cli_step (coc : ChainOfCustody) (node : Node) (ipfs : IpfsWorld) (choice : String) (inputs : List String) : StepRes :=
  if choice = "1" then (registerAction coc node ipfs inputs).continues
  else if choice = "2" then (transferAction coc node inputs).continues
  else if choice = "3" then (deleteAction coc node inputs).continues
  else if choice = "4" then (viewAction coc node inputs).continues
  else if choice = "5" then (historyAction coc node inputs).continues
  else if choice = "6" then (listAction coc node).continues
  else if choice = "0" then
    ⟨LoopOutcome.exitWith 0, node, coc, ["Exiting CLI."], []⟩
  else
    ⟨LoopOutcome.next, node, coc, ["Invalid choice. Please select a valid option."], []⟩

/-- Runs the console loop over a finite script of (menu choice, handler
inputs) pairs: `none` when the script runs out with the loop still waiting
for input, `some code` when the loop was left and the process exits with
`code`. -/
def main_cli_run (coc : ChainOfCustody) (node : Node) (ipfs : IpfsWorld) : List (String × List String) → Option Nat
  | [] => none
  | (choice, inputs) :: rest =>
    let r := main_cli_step coc node ipfs choice inputs
    match r.outcome with
    | LoopOutcome.exitWith code => some code
    | LoopOutcome.next => main_cli_run r.coc r.node ipfs rest

/-- A valid address used as the deployed contract's address in concrete
instances. -/
def addrContract : String := "0x00000000000000000000000000000000000000a1"

/-- A valid address used as the configured session account in concrete
instances. -/
def addrUser : String := "0x00000000000000000000000000000000000000b2"

/-- A valid address used as a transfer recipient in concrete instances. -/
def addrAlt : String := "0x00000000000000000000000000000000000000c3"

/-- A concrete client session used to instantiate the theorems. -/
def coc0 : ChainOfCustody :=
  { httpProvider := "http://127.0.0.1:7545", contract_address := addrContract,
    contract_config := { abi := ["registerEvidence", "transferEvidence", "deleteEvidence",
                                 "viewEvidence", "getHistory", "getAllEvidenceIds"] },
    account := addrUser }

/-- A concrete reachable node with an empty contract store used to
instantiate the theorems. -/
def node0 : Node :=
  { reachable := true, accounts := [addrUser, addrAlt],
    balances := [(addrUser, 2000000000000000000)], txCount := [],
    contractStore := { records := [], histories := [] },
    blockNumber := 5, txIssued := 0, now := 1700000000 }

/-- A concrete storage world with no reachable daemon, used to instantiate
the upload-failure theorems. -/
def ipfsDown : IpfsWorld := { daemonUp := false, files := [] }

/-- A concrete storage world with a daemon and one file, used to
instantiate the upload-success paths. -/
def ipfsUp : IpfsWorld := { daemonUp := true, files := [("evidence.jpg", "QmHash001")] }

/-- Checks the nonce discipline of a trace: every transaction submission is
immediately preceded by a nonce fetch for the given account, is sent from
that account, and carries exactly the account's transaction count as read
at the start of the method. -/
def nonceDisciplineOk (acct : String) (cnt : Nat) : List Effect → Bool
  | [] => true
  | Effect.fetchNonce a :: Effect.submitTx _ s n :: rest =>
    a == acct && s == acct && n == cnt && nonceDisciplineOk acct cnt rest
  | Effect.submitTx _ _ _ :: _ => false
  | _ :: rest => nonceDisciplineOk acct cnt rest

/-- The contract storage after registering `("CASE1", "EVID1")` on the empty
store from `addrUser` at time 1700000000, used to instantiate theorems. -/
def regState1 : ContractState :=
  { records := [(("CASE1", "EVID1"),
      { evidenceId := "EVID1", holder := addrUser, holderName := "Alice",
        description := "found", ipfsHash := "QmHash001", deleted := false })],
    histories := [(("CASE1", "EVID1"),
      [{ holder := addrUser, holderName := "Alice", action := "collected",
         description := "found", timestamp := 1700000000 }])] }

/-- The contract storage after transferring `("CASE1", "EVID1")` on
`regState1` to `addrAlt` at time 1700000001, used to instantiate theorems. -/
def transState1 : ContractState :=
  { records := [(("CASE1", "EVID1"),
      { evidenceId := "EVID1", holder := addrAlt, holderName := "Bob",
        description := "moved", ipfsHash := "QmHash001", deleted := false })],
    histories := [(("CASE1", "EVID1"),
      [{ holder := addrUser, holderName := "Alice", action := "collected",
         description := "found", timestamp := 1700000000 },
       { holder := addrAlt, holderName := "Bob", action := "transferred",
         description := "moved", timestamp := 1700000001 }])] }

/-- Appending a history entry for a key stores it at the tail of what that
key previously held (the empty list when the key was absent). -/
theorem findHistory_appendHistory (hs : List ((String × String) × List HistoryEntry)) (c e : String) (en : HistoryEntry) :
    findHistory (appendHistory hs c e en) c e = some ((findHistory hs c e).getD [] ++ [en]) := by
  induction hs with
  | nil => simp [appendHistory, findHistory]
  | cons kv rest ih =>
    obtain ⟨k, l⟩ := kv
    by_cases hk : k.1 = c ∧ k.2 = e
    · simp [appendHistory, findHistory, hk]
    · simp [appendHistory, findHistory, hk, ih]

/-- The choice-5 handler always prints at least one line. -/
theorem historyLines_ne_nil (h : List HistoryEntry) : historyLines h ≠ [] := by
  cases h with
  | nil => simp [historyLines]
  | cons a t => simp [historyLines]

/-- The only exit code a console-loop iteration can produce is 0. -/
theorem main_cli_step_exit_code (coc : ChainOfCustody) (node : Node) (ipfs : IpfsWorld) (choice : String) (inputs : List String) (k : Nat) :
    (main_cli_step coc node ipfs choice inputs).outcome = LoopOutcome.exitWith k → k = 0 := by
  intro h
  unfold main_cli_step at h
  repeat' split at h
  all_goals simp_all [ActionRes.continues]

/-- Whenever a run of the console loop over a script terminates, its exit
code is 0. -/
theorem main_cli_run_exit_zero (script : List (String × List String)) : ∀ (coc : ChainOfCustody) (node : Node) (ipfs : IpfsWorld) (code : Nat),
    main_cli_run coc node ipfs script = some code → code = 0 := by
  induction script with
  | nil => intro coc node ipfs code h; simp [main_cli_run] at h
  | cons p rest ih =>
    intro coc node ipfs code h
    obtain ⟨choice, inputs⟩ := p
    simp only [main_cli_run] at h
    cases ho : (main_cli_step coc node ipfs choice inputs).outcome with
    | next =>
      rw [ho] at h
      exact ih _ _ _ _ h
    | exitWith k =>
      rw [ho] at h
      simp only [Option.some.injEq] at h
      subst h
      exact main_cli_step_exit_code coc node ipfs choice inputs _ ho

/-- C9: the client session configuration (ledger endpoint, contract
address, contract interface descriptor, caller account) is set only in the
constructor; every operation of the `ChainOfCustody` class returns the
client object with all session fields unchanged. -/
theorem session_config_immutable (coc : ChainOfCustody) (node : Node) (oa : Option String) (c e hn d ih a ta tn ds : String) (fs : List (String × String)) :
    (coc.getAccounts node).self = coc ∧
    (coc.getBalance node oa).self = coc ∧
    (coc.registerEvidence node c e hn d ih a).self = coc ∧
    (coc.transferEvidence node c e ta tn a ds).self = coc ∧
    (coc.deleteEvidence node c e).self = coc ∧
    (coc.viewEvidence node c e).self = coc ∧
    (coc.getHistory node c e).self = coc ∧
    (coc.getAllEvidenceIds node).self = coc ∧
    (coc.getPrivateKey fs).2 = coc := by
  refine ⟨?_, ?_, ?_, ?_, ?_, ?_, ?_, ?_, ?_⟩
  · unfold ChainOfCustody.getAccounts
    split <;> rfl
  · unfold ChainOfCustody.getBalance
    repeat' split
    all_goals rfl
  · unfold ChainOfCustody.registerEvidence
    repeat' split
    all_goals rfl
  · unfold ChainOfCustody.transferEvidence
    repeat' split
    all_goals rfl
  · unfold ChainOfCustody.deleteEvidence
    repeat' split
    all_goals rfl
  · unfold ChainOfCustody.viewEvidence
    split <;> rfl
  · unfold ChainOfCustody.getHistory
    split <;> rfl
  · unfold ChainOfCustody.getAllEvidenceIds
    split <;> rfl
  · unfold ChainOfCustody.getPrivateKey
    split <;> rfl

/-- C4: for every malformed recipient address, `transferEvidence` fails
with an `InvalidAddress` error; and the Python call with `action` and
`desc` left at their defaults is the call with `"transferred"` and the
empty string. -/
theorem transferEvidence_invalid_address_and_defaults (coc : ChainOfCustody) (node : Node) (c e ta tn a ds : String) :
    (isValidAddress ta = false →
      (coc.transferEvidence node c e ta tn a ds).result = Except.error (Err.invalidAddress ta)) ∧
    coc.transferEvidenceDefault node c e ta tn = coc.transferEvidence node c e ta tn "transferred" "" := by
  constructor
  · intro hv
    unfold ChainOfCustody.transferEvidence Web3.toChecksumAddress
    simp [hv]
  · rfl

/-- Witness for C4 at a concrete malformed recipient address. -/
theorem transferEvidence_invalid_address_and_defaults_witness :
    (coc0.transferEvidence node0 "CASE1" "EVID1" "bogus" "Bob" "transferred" "note").result =
      Except.error (Err.invalidAddress "bogus") :=
  (transferEvidence_invalid_address_and_defaults coc0 node0 "CASE1" "EVID1" "bogus" "Bob" "transferred" "note").1 (by decide)

/-- C10: for every malformed recipient address, `transferEvidence` raises
before the nonce is fetched and before any transaction is submitted: its
remote-call trace is empty (in particular it holds no nonce fetch and no
submission) and the node state is unchanged. -/
theorem transferEvidence_invalid_address_atomic (coc : ChainOfCustody) (node : Node) (c e ta tn a ds : String) :
    isValidAddress ta = false →
      (coc.transferEvidence node c e ta tn a ds).trace = [] ∧
      (coc.transferEvidence node c e ta tn a ds).node = node ∧
      (∀ acct, Effect.fetchNonce acct ∉ (coc.transferEvidence node c e ta tn a ds).trace) ∧
      (∀ f s n, Effect.submitTx f s n ∉ (coc.transferEvidence node c e ta tn a ds).trace) := by
  intro hv
  unfold ChainOfCustody.transferEvidence Web3.toChecksumAddress
  simp [hv]

/-- Witness for C10 at a concrete malformed recipient address. -/
theorem transferEvidence_invalid_address_atomic_witness :
    (coc0.transferEvidence node0 "CASE1" "EVID1" "0xNOTANADDRESS" "Bob" "transferred" "").trace = [] ∧
    (coc0.transferEvidence node0 "CASE1" "EVID1" "0xNOTANADDRESS" "Bob" "transferred" "").node = node0 ∧
    Effect.fetchNonce coc0.account ∉ (coc0.transferEvidence node0 "CASE1" "EVID1" "0xNOTANADDRESS" "Bob" "transferred" "").trace ∧
    Effect.submitTx "transferEvidence" coc0.account 0 ∉ (coc0.transferEvidence node0 "CASE1" "EVID1" "0xNOTANADDRESS" "Bob" "transferred" "").trace :=
  ⟨(transferEvidence_invalid_address_atomic coc0 node0 "CASE1" "EVID1" "0xNOTANADDRESS" "Bob" "transferred" "" (by decide)).1,
   (transferEvidence_invalid_address_atomic coc0 node0 "CASE1" "EVID1" "0xNOTANADDRESS" "Bob" "transferred" "" (by decide)).2.1,
   (transferEvidence_invalid_address_atomic coc0 node0 "CASE1" "EVID1" "0xNOTANADDRESS" "Bob" "transferred" "" (by decide)).2.2.1 coc0.account,
   (transferEvidence_invalid_address_atomic coc0 node0 "CASE1" "EVID1" "0xNOTANADDRESS" "Bob" "transferred" "" (by decide)).2.2.2 "transferEvidence" coc0.account 0⟩

/-- C3 counterexample: on a reachable node whose contract store holds no
record for ("CASE1", "EVID1") the contract call returns the empty/default
record, and `viewEvidence` succeeds with that default record instead of
failing with `NotFound` — the Python method forwards the call result with
no emptiness check. -/
theorem viewEvidence_default_no_notfound_counterexample :
    node0.contractStore.viewOf "CASE1" "EVID1" = defaultEvidenceRecord ∧
    (coc0.viewEvidence node0 "CASE1" "EVID1").result = Except.ok defaultEvidenceRecord ∧
    (coc0.viewEvidence node0 "CASE1" "EVID1").result ≠ Except.error Err.notFound := by
  refine ⟨rfl, rfl, ?_⟩
  intro h
  exact Except.noConfusion h

/-- C3 amended: `viewEvidence` forwards the record exactly as the contract
call yields it — on a reachable node it returns the stored record, which is
the empty/default record when the entry is absent — and it never fails with
`NotFound`; it fails only when the underlying call itself fails. -/
theorem viewEvidence_forwards_contract_record (coc : ChainOfCustody) (node : Node) (c e : String) :
    (node.reachable = true →
      (coc.viewEvidence node c e).result = Except.ok (node.contractStore.viewOf c e)) ∧
    (coc.viewEvidence node c e).result ≠ Except.error Err.notFound := by
  constructor
  · intro hr
    unfold ChainOfCustody.viewEvidence
    simp [hr]
  · unfold ChainOfCustody.viewEvidence
    by_cases hr : node.reachable = true
    · simp [hr]
    · simp only [Bool.not_eq_true] at hr
      simp [hr]

/-- Witness for the amended C3 on a concrete reachable node with an empty
contract store. -/
theorem viewEvidence_forwards_contract_record_witness :
    (coc0.viewEvidence node0 "CASE1" "EVID1").result = Except.ok (node0.contractStore.viewOf "CASE1" "EVID1") ∧
    (coc0.viewEvidence node0 "CASE1" "EVID1").result ≠ Except.error Err.notFound :=
  ⟨(viewEvidence_forwards_contract_record coc0 node0 "CASE1" "EVID1").1 rfl,
   (viewEvidence_forwards_contract_record coc0 node0 "CASE1" "EVID1").2⟩

/-- C1: whenever the connect/add sequence fails for any cause,
`upload_file_to_ipfs` returns the distinguished failure value `none`
instead of raising; and in the register flow of the console loop a `none`
upload result means `registerEvidence` is never invoked — the trace of the
iteration holds only the attempted upload, and the node is untouched. -/
theorem upload_failure_returns_none_blocks_register (w : IpfsWorld) (p : String) :
    (∀ cause, ipfs_connect_add w p = Except.error cause → upload_file_to_ipfs w p = none) ∧
    (∀ (coc : ChainOfCustody) (node : Node) (caseId evidenceId holderName description : String),
      upload_file_to_ipfs w p = none →
        (main_cli_step coc node w "1" [caseId, evidenceId, holderName, description, p]).trace = [Effect.ipfsAdd p] ∧
        (main_cli_step coc node w "1" [caseId, evidenceId, holderName, description, p]).node = node ∧
        (∀ f s n, Effect.submitTx f s n ∉ (main_cli_step coc node w "1" [caseId, evidenceId, holderName, description, p]).trace)) := by
  constructor
  · intro cause h
    unfold upload_file_to_ipfs
    rw [h]
  · intro coc node caseId evidenceId holderName description hu
    unfold main_cli_step registerAction ActionRes.continues
    simp [hu]

/-- Witness for C1: with no storage daemon running, the upload of a missing
file returns `none` and the register action submits nothing. -/
theorem upload_failure_returns_none_blocks_register_witness :
    upload_file_to_ipfs ipfsDown "missing.jpg" = none ∧
    (main_cli_step coc0 node0 ipfsDown "1" ["CASE1", "EVID1", "Alice", "found", "missing.jpg"]).trace = [Effect.ipfsAdd "missing.jpg"] ∧
    (main_cli_step coc0 node0 ipfsDown "1" ["CASE1", "EVID1", "Alice", "found", "missing.jpg"]).node = node0 :=
  ⟨(upload_failure_returns_none_blocks_register ipfsDown "missing.jpg").1
     "ConnectionError: storage daemon not running" (by rfl),
   ((upload_failure_returns_none_blocks_register ipfsDown "missing.jpg").2
     coc0 node0 "CASE1" "EVID1" "Alice" "found" (by rfl)).1,
   ((upload_failure_returns_none_blocks_register ipfsDown "missing.jpg").2
     coc0 node0 "CASE1" "EVID1" "Alice" "found" (by rfl)).2.1⟩

/-- C7: `getBalance` returns the wei balance of the given account — of the
session account when no address is supplied — divided by the chain's
decimal factor 10 ^ 18 (wei to ether). -/
theorem getBalance_human_readable_units (coc : ChainOfCustody) (node : Node) :
    (∀ w, Web3.fromWei w = (w : ℚ) / ((10 : ℚ) ^ 18)) ∧
    (node.reachable = true →
      (coc.getBalanceDefault node).result = Except.ok (Web3.fromWei (lookupNat node.balances coc.account))) ∧
    (∀ a, node.reachable = true → isValidAddress a = true →
      (coc.getBalance node (some a)).result = Except.ok (Web3.fromWei (lookupNat node.balances a))) := by
  refine ⟨fun w => rfl, ?_, ?_⟩
  · intro hr
    unfold ChainOfCustody.getBalanceDefault ChainOfCustody.getBalance Node.get_balance
    simp [hr]
  · intro a hr hv
    unfold ChainOfCustody.getBalance Web3.toChecksumAddress Node.get_balance
    simp [hr, hv]

/-- Witness for C7 on a concrete node holding 2 ether in wei for the
session account. -/
theorem getBalance_human_readable_units_witness :
    (coc0.getBalanceDefault node0).result = Except.ok (Web3.fromWei (lookupNat node0.balances coc0.account)) ∧
    (coc0.getBalance node0 (some addrAlt)).result = Except.ok (Web3.fromWei (lookupNat node0.balances addrAlt)) ∧
    Web3.fromWei 2000000000000000000 = ((2000000000000000000 : Nat) : ℚ) / ((10 : ℚ) ^ 18) :=
  ⟨(getBalance_human_readable_units coc0 node0).2.1 rfl,
   (getBalance_human_readable_units coc0 node0).2.2 addrAlt rfl (by decide),
   (getBalance_human_readable_units coc0 node0).1 2000000000000000000⟩

/-- The choice-1 handler always prints at least one line. -/
theorem registerAction_messages_ne_nil (coc : ChainOfCustody) (node : Node) (ipfs : IpfsWorld) (inputs : List String) :
    (registerAction coc node ipfs inputs).messages ≠ [] := by
  simp only [registerAction]
  split
  · simp
  · split <;> simp

/-- The choice-2 handler always prints at least one line. -/
theorem transferAction_messages_ne_nil (coc : ChainOfCustody) (node : Node) (inputs : List String) :
    (transferAction coc node inputs).messages ≠ [] := by
  simp only [transferAction]
  split <;> simp

/-- The choice-3 handler always prints at least one line. -/
theorem deleteAction_messages_ne_nil (coc : ChainOfCustody) (node : Node) (inputs : List String) :
    (deleteAction coc node inputs).messages ≠ [] := by
  simp only [deleteAction]
  split <;> simp

/-- The choice-4 handler always prints at least one line. -/
theorem viewAction_messages_ne_nil (coc : ChainOfCustody) (node : Node) (inputs : List String) :
    (viewAction coc node inputs).messages ≠ [] := by
  simp only [viewAction]
  split <;> simp

/-- The choice-5 handler always prints at least one line. -/
theorem historyAction_messages_ne_nil (coc : ChainOfCustody) (node : Node) (inputs : List String) :
    (historyAction coc node inputs).messages ≠ [] := by
  simp only [historyAction]
  split
  · exact historyLines_ne_nil _
  · simp

/-- The choice-6 handler always prints at least one line. -/
theorem listAction_messages_ne_nil (coc : ChainOfCustody) (node : Node) :
    (listAction coc node).messages ≠ [] := by
  simp only [listAction]
  split <;> simp

/-- C8: for every menu choice other than the exit choice `"0"` the console
loop continues to the next iteration whatever the ledger client or the
uploader did (errors are caught at the action and turned into a printed
message — every iteration prints at least one line), and the only way a run
of the loop terminates is through choice `"0"` with exit code 0. -/
theorem console_loop_catches_errors_exits_zero (coc : ChainOfCustody) (node : Node) (ipfs : IpfsWorld) (choice : String) (inputs : List String) :
    (choice ≠ "0" → (main_cli_step coc node ipfs choice inputs).outcome = LoopOutcome.next) ∧
    (main_cli_step coc node ipfs "0" inputs).outcome = LoopOutcome.exitWith 0 ∧
    (main_cli_step coc node ipfs choice inputs).messages ≠ [] ∧
    (∀ (script : List (String × List String)) (code : Nat),
      main_cli_run coc node ipfs script = some code → code = 0) := by
  refine ⟨?_, ?_, ?_, ?_⟩
  · intro h
    unfold main_cli_step
    repeat' split
    all_goals first
      | rfl
      | (exact absurd (by assumption) h)
  · unfold main_cli_step
    repeat' split
    all_goals simp_all
  · unfold main_cli_step
    repeat' split
    all_goals
      simp [ActionRes.continues, registerAction_messages_ne_nil, transferAction_messages_ne_nil,
        deleteAction_messages_ne_nil, viewAction_messages_ne_nil, historyAction_messages_ne_nil,
        listAction_messages_ne_nil]
  · intro script code h
    exact main_cli_run_exit_zero script coc node ipfs code h

/-- Witness for C8: a failing transfer action continues the loop with an
error message printed, and a script choosing exit terminates with code 0. -/
theorem console_loop_catches_errors_exits_zero_witness :
    (main_cli_step coc0 node0 ipfsDown "2" ["CASE1", "EVID1", "bogus", "Bob", "note"]).outcome = LoopOutcome.next ∧
    (main_cli_step coc0 node0 ipfsDown "0" []).outcome = LoopOutcome.exitWith 0 ∧
    (main_cli_step coc0 node0 ipfsDown "2" ["CASE1", "EVID1", "bogus", "Bob", "note"]).messages ≠ [] ∧
    (0 : Nat) = 0 :=
  ⟨(console_loop_catches_errors_exits_zero coc0 node0 ipfsDown "2" ["CASE1", "EVID1", "bogus", "Bob", "note"]).1 (by decide),
   (console_loop_catches_errors_exits_zero coc0 node0 ipfsDown "0" []).2.1,
   (console_loop_catches_errors_exits_zero coc0 node0 ipfsDown "2" ["CASE1", "EVID1", "bogus", "Bob", "note"]).2.2.1,
   (console_loop_catches_errors_exits_zero coc0 node0 ipfsDown "0" []).2.2.2 [("0", [])] 0 (by rfl)⟩

/-- C2: every mutating operation (register, transfer, delete) sends from
the configured session account and fetches a fresh transaction count for it
immediately before submitting: in every possible trace, each submission is
sent from the session account, carries the account's current transaction
count as nonce, and directly follows the nonce fetch. -/
theorem mutating_ops_fresh_nonce (coc : ChainOfCustody) (node : Node) (c e hn d ih a ta tn ds : String) :
    nonceDisciplineOk coc.account (node.countOf coc.account) (coc.registerEvidence node c e hn d ih a).trace = true ∧
    nonceDisciplineOk coc.account (node.countOf coc.account) (coc.transferEvidence node c e ta tn a ds).trace = true ∧
    nonceDisciplineOk coc.account (node.countOf coc.account) (coc.deleteEvidence node c e).trace = true := by
  refine ⟨?_, ?_, ?_⟩
  · by_cases hr : node.reachable = true
    · simp only [ChainOfCustody.registerEvidence, Node.get_transaction_count, Node.transact,
        Node.wait_for_transaction_receipt, hr, if_true, eq_self_iff_true, ite_true]
      repeat' split
      all_goals simp [nonceDisciplineOk]
    · simp [ChainOfCustody.registerEvidence, Node.get_transaction_count, hr, nonceDisciplineOk]
  · by_cases hr : node.reachable = true
    · simp only [ChainOfCustody.transferEvidence, Web3.toChecksumAddress,
        Node.get_transaction_count, Node.transact, Node.wait_for_transaction_receipt, hr,
        if_true, eq_self_iff_true, ite_true]
      repeat' split
      all_goals simp [nonceDisciplineOk]
    · simp only [ChainOfCustody.transferEvidence, Web3.toChecksumAddress,
        Node.get_transaction_count, hr]
      repeat' split
      all_goals simp_all [nonceDisciplineOk]
  · by_cases hr : node.reachable = true
    · simp only [ChainOfCustody.deleteEvidence, Node.get_transaction_count, Node.transact,
        Node.wait_for_transaction_receipt, hr, if_true, eq_self_iff_true, ite_true]
      repeat' split
      all_goals simp [nonceDisciplineOk]
    · simp [ChainOfCustody.deleteEvidence, Node.get_transaction_count, hr, nonceDisciplineOk]

/-- C5: a call of `registerEvidence` with the `action` parameter left at
its default is the call with `"collected"`; and every successful invocation
submitted the state-changing call from the configured account with a fresh
nonce, waited for the transaction's confirmation, and returned its receipt
(hash of the issued transaction, its block number, success status). -/
theorem registerEvidence_success_behavior (coc : ChainOfCustody) (node : Node) (c e hn d ih : String) :
    coc.registerEvidenceDefault node c e hn d ih = coc.registerEvidence node c e hn d ih "collected" ∧
    (∀ r, (coc.registerEvidence node c e hn d ih "collected").result = Except.ok r →
      r.status = true ∧
      r.transactionHash = node.txIssued ∧
      r.blockNumber = node.blockNumber + 1 ∧
      (coc.registerEvidence node c e hn d ih "collected").trace =
        [Effect.fetchNonce coc.account,
         Effect.submitTx "registerEvidence" coc.account (node.countOf coc.account),
         Effect.waitReceipt r.transactionHash]) := by
  refine ⟨rfl, ?_⟩
  intro r hres
  by_cases hr : node.reachable = true
  · simp only [ChainOfCustody.registerEvidence, Node.get_transaction_count, Node.transact,
      Node.wait_for_transaction_receipt, hr, if_true, eq_self_iff_true, ite_true] at hres ⊢
    cases hec : execContract node.contractStore (ContractCall.register c e hn d ih "collected") coc.account node.now with
    | error m =>
      rw [hec] at hres
      exact Except.noConfusion hres
    | ok cs =>
      rw [hec] at hres
      injection hres with h2
      subst h2
      exact ⟨rfl, rfl, rfl, rfl⟩
  · simp only [ChainOfCustody.registerEvidence, Node.get_transaction_count, hr, if_false] at hres
    simp at hres

/-- Witness for C5: a concrete successful registration on a fresh node. -/
theorem registerEvidence_success_behavior_witness :
    (Receipt.mk 0 6 true).status = true ∧
    (Receipt.mk 0 6 true).transactionHash = node0.txIssued ∧
    (Receipt.mk 0 6 true).blockNumber = node0.blockNumber + 1 ∧
    (coc0.registerEvidence node0 "CASE1" "EVID1" "Alice" "found" "QmHash001" "collected").trace =
      [Effect.fetchNonce coc0.account,
       Effect.submitTx "registerEvidence" coc0.account (node0.countOf coc0.account),
       Effect.waitReceipt (Receipt.mk 0 6 true).transactionHash] :=
  (registerEvidence_success_behavior coc0 node0 "CASE1" "EVID1" "Alice" "found" "QmHash001").2
    (Receipt.mk 0 6 true) (by rfl)

/-- C6: `getHistory` returns the contract's stored history sequence in
storage order, the empty sequence (not an error) for a never-registered
pair; and the contract appends the entry produced by each successful
register or transfer at the tail of that sequence, so the returned order is
oldest first. -/
theorem getHistory_oldest_first_and_empty (coc : ChainOfCustody) (node : Node) (c e : String) :
    (node.reachable = true →
      (coc.getHistory node c e).result = Except.ok (node.contractStore.histOf c e)) ∧
    (node.reachable = true → findHistory node.contractStore.histories c e = none →
      (coc.getHistory node c e).result = Except.ok []) ∧
    (∀ (cs : ContractState) (sender : String) (now : Nat) (hn d ih a : String) (cs' : ContractState),
      execContract cs (ContractCall.register c e hn d ih a) sender now = Except.ok cs' →
      cs'.histOf c e = cs.histOf c e ++
        [{ holder := sender, holderName := hn, action := a, description := d, timestamp := now }]) ∧
    (∀ (cs : ContractState) (sender : String) (now : Nat) (ta tn a d : String) (cs' : ContractState),
      execContract cs (ContractCall.transfer c e ta tn a d) sender now = Except.ok cs' →
      cs'.histOf c e = cs.histOf c e ++
        [{ holder := ta, holderName := tn, action := a, description := d, timestamp := now }]) := by
  refine ⟨?_, ?_, ?_, ?_⟩
  · intro hr
    unfold ChainOfCustody.getHistory
    simp [hr]
  · intro hr hnone
    unfold ChainOfCustody.getHistory
    simp [hr, ContractState.histOf, hnone]
  · intro cs sender now hn d ih a cs' hex
    simp only [execContract] at hex
    cases hf : findRecord cs.records c e with
    | some r =>
      rw [hf] at hex
      exact Except.noConfusion hex
    | none =>
      rw [hf] at hex
      injection hex with h2
      subst h2
      simp [ContractState.histOf, findHistory_appendHistory]
  · intro cs sender now ta tn a d cs' hex
    simp only [execContract] at hex
    cases hf : findRecord cs.records c e with
    | none =>
      rw [hf] at hex
      exact Except.noConfusion hex
    | some r =>
      rw [hf] at hex
      injection hex with h2
      subst h2
      simp [ContractState.histOf, findHistory_appendHistory]

/-- Witness for C6: a fresh pair yields the empty history, and concrete
register and transfer executions append their entries at the tail. -/
theorem getHistory_oldest_first_and_empty_witness :
    (coc0.getHistory node0 "CASE1" "EVID1").result = Except.ok [] ∧
    regState1.histOf "CASE1" "EVID1" = node0.contractStore.histOf "CASE1" "EVID1" ++
      [{ holder := addrUser, holderName := "Alice", action := "collected",
         description := "found", timestamp := 1700000000 }] ∧
    transState1.histOf "CASE1" "EVID1" = regState1.histOf "CASE1" "EVID1" ++
      [{ holder := addrAlt, holderName := "Bob", action := "transferred",
         description := "moved", timestamp := 1700000001 }] :=
  ⟨(getHistory_oldest_first_and_empty coc0 node0 "CASE1" "EVID1").2.1 rfl rfl,
   (getHistory_oldest_first_and_empty coc0 node0 "CASE1" "EVID1").2.2.1
     node0.contractStore addrUser 1700000000 "Alice" "found" "QmHash001" "collected" regState1 (by rfl),
   (getHistory_oldest_first_and_empty coc0 node0 "CASE1" "EVID1").2.2.2
     regState1 addrUser 1700000001 addrAlt "Bob" "transferred" "moved" transState1 (by rfl)⟩
